import Mathlib

/-!
Verification of the asynchronous media pipeline of the fastapi-pasta
repository against its natural-language specification.

The embedding below translates the Python sources:
  * src/models/base.py  — Job, ActiveConnection, ConnectionManager
  * src/models/db.py    — VideoItem, JobItem (persisted rows)
  * src/utils/main.py   — generate_file_name, generate_file_path
  * src/main.py         — upload_route_video, the websocket endpoint's
                          registration step and notification loop
  * src/services/video.py — async_compress_video

Python strings used as filesystem paths are modelled as lists of
characters (`FileStr`); `uuid.uuid4()` results are passed in as explicit
token arguments, the standard treatment of randomness.  Database commits
append to in-memory lists of rows; SQLAlchemy autoincrement ids are a
counter in the state.
-/

namespace FastapiPasta

/-- Paths and filenames: Python `str`, modelled as a character list. -/
abbrev FileStr := List Char

/-- src/models/base.py, class Job: `{user_id, video_id, route_id, completed}`.
Pydantic models compare by field values, which `DecidableEq` mirrors
(Python `list.remove` uses this equality). -/
structure Job where
  user_id : Nat
  video_id : Nat
  route_id : Nat
  completed : Bool
deriving DecidableEq

/-- src/models/db.py, class VideoItem (table `videos`): columns are exactly
`id`, `filename`, `route_id`.  The table has no completion or failure
columns. -/
structure VideoItem where
  id : Nat
  filename : FileStr
  route_id : Nat
deriving DecidableEq

/-- src/models/db.py, class JobItem (table `jobs`): the persisted job
history row.  `created_at` (a datetime) is modelled as a numeric clock
value. -/
structure JobItem where
  created_at : Nat
  user_id : Nat
  video_id : Nat
  route_id : Nat
  completed : Bool
deriving DecidableEq

/-- The transport handle of one websocket; only its identity matters to
the core. -/
structure WebSocketChan where
  id : Nat
deriving DecidableEq

/-- src/models/base.py, class ActiveConnection: `{user_id, websocket}`. -/
structure ActiveConnection where
  user_id : Nat
  websocket : WebSocketChan
deriving DecidableEq

/-- src/models/base.py, class ConnectionManager: holds the list
`active_connections`. -/
structure ConnectionManager where
  active_connections : List ActiveConnection
deriving DecidableEq

/-- src/models/base.py, `ConnectionManager.disconnect`: runs
`self.active_connections.remove(active_connection)`.  Python
`list.remove` deletes the first element equal to the argument and raises
`ValueError` when no element matches; the embedding returns the error
explicitly. -/
def ConnectionManager.disconnect (m : ConnectionManager)
    (c : ActiveConnection) : Except String ConnectionManager :=
  if c ∈ m.active_connections then
    .ok ⟨m.active_connections.erase c⟩
  else
    .error "ValueError: list.remove(x): x not in list"

/-- src/models/base.py, `ConnectionManager.connect`: accepts the socket
and appends the connection to the active list. -/
def ConnectionManager.connect (m : ConnectionManager)
    (c : ActiveConnection) : ConnectionManager :=
  ⟨m.active_connections ++ [c]⟩

/-- The close/disconnect signals a registration step emits to evicted
sockets (none are emitted by the code: `manager.disconnect` only removes
the entry from the list and never calls `websocket.close`). -/
structure RegisterEffects where
  closed_sockets : List Nat
deriving DecidableEq

/-- src/main.py lines 445-451 (ws_endpoint registration step): look up an
existing connection of the same user with `next(...)`, call
`manager.disconnect` on it when found, then `manager.connect` the new
`ActiveConnection`.  No close frame is ever sent to the evicted socket,
so `closed_sockets` is always empty. -/
def ws_register (m : ConnectionManager) (user_id : Nat)
    (ws : WebSocketChan) : Except String (ConnectionManager × RegisterEffects) :=
  match m.active_connections.find? (fun conn => conn.user_id == user_id) with
  | some existing =>
    match m.disconnect existing with
    | .ok m1 => .ok (m1.connect ⟨user_id, ws⟩, ⟨[]⟩)
    | .error e => .error e
  | none => .ok (m.connect ⟨user_id, ws⟩, ⟨[]⟩)

/-- src/utils/main.py, `generate_file_name`: returns
`f"{uuid.uuid4()}-{filename}"`.  The freshly drawn uuid string is the
explicit `token` argument. -/
def generate_file_name (token : FileStr) (filename : FileStr) : FileStr :=
  token ++ ('-' :: filename)

/-- src/utils/main.py, `generate_file_path`: returns
`os.getcwd() + f"/{VIDEOS_DIR}/" + generate_file_name(orig_name)`. -/
def generate_file_path (token cwd videos_dir orig_name : FileStr) : FileStr :=
  cwd ++ ('/' :: (videos_dir ++ ('/' :: generate_file_name token orig_name)))

/-- The shared state upload_route_video and async_compress_video act on:
the storage directory flag and its files, the persisted `videos` table
with its autoincrement counter, the in-memory job registry `jobs`
(src/main.py line 82), and the background tasks queued so far. -/
structure AppState where
  dir_exists : Bool
  files : List FileStr
  videos : List VideoItem
  next_video_id : Nat
  jobs : List Job
  tasks : List (FileStr × FileStr)
deriving DecidableEq

/-- Fault injection for the fallible operations of upload_route_video:
`os.mkdir`, reading the upload stream, writing the raw file, and the
database commit can each raise.  The remaining statements (appending to
the in-memory `jobs` list, `BackgroundTasks.add_task`) are infallible
in-memory appends. -/
structure Faults where
  mkdir_fails : Bool
  read_fails : Bool
  write_fails : Bool
  commit_fails : Bool
deriving DecidableEq

/-- src/main.py lines 262-296, `upload_route_video`: ensures the videos
directory exists, reads the upload, writes it to a first generated path,
persists a VideoItem whose filename is a second generated path, appends a
Job to the registry, schedules the compression task, and returns the new
video id.  Any exception is caught by the `except` clause, which calls
`db.rollback()` (dropping the uncommitted row) and falls out returning
`None`.  `tok1` and `tok2` are the two `uuid.uuid4()` draws; `name1` and
`name2` are the two evaluations of
`upload_file.filename or generate_file_name()` (equal whenever the client
supplied a filename). -/
def upload_route_video (route_id user_id : Nat) (tok1 tok2 name1 name2 cwd vdir : FileStr)
    (f : Faults) (st : AppState) : Option Nat × AppState :=
  if !st.dir_exists && f.mkdir_fails then (none, st)
  else
    let st1 := { st with dir_exists := true }
    if f.read_fails then (none, st1)
    else
      let file_path := generate_file_path tok1 cwd vdir name1
      if f.write_fails then (none, st1)
      else
        let st2 := { st1 with files := st1.files ++ [file_path] }
        let new_file_path := generate_file_path tok2 cwd vdir name2
        if f.commit_fails then (none, st2)
        else
          let vid := st2.next_video_id
          let st3 := { st2 with
            videos := st2.videos ++ [(⟨vid, new_file_path, route_id⟩ : VideoItem)],
            next_video_id := vid + 1 }
          let st4 := { st3 with jobs := st3.jobs ++ [(⟨user_id, vid, route_id, false⟩ : Job)] }
          let st5 := { st4 with tasks := st4.tasks ++ [(file_path, new_file_path)] }
          (some vid, st5)

/-- src/services/video.py line 24-26: the worker's video lookup,
`db.query(VideoItem).filter(VideoItem.filename == new_file_path).first()`. -/
def lookup_video (videos : List VideoItem) (path : FileStr) : Option VideoItem :=
  videos.find? (fun v => v.filename == path)

/-- src/services/video.py lines 28-30: the worker's job lookup,
`next(iter([job for job in jobs if job.video_id == video_item.id]), None)`,
i.e. the first registry entry with the matching video id. -/
def lookup_job (jobs : List Job) (vid : Nat) : Option Job :=
  (jobs.filter (fun j => j.video_id == vid)).head?

/-- src/services/video.py line 32, `job_item.completed = True`: Python
mutates the looked-up object in place, which is the first job of the list
with the matching video id; all other entries are untouched. -/
def mark_job_completed : List Job → Nat → List Job
  | [], _ => []
  | j :: rest, vid =>
    if j.video_id = vid then { j with completed := true } :: rest
    else j :: mark_job_completed rest vid

/-- Outcome of the ffmpeg subprocess launched by the worker with
`subprocess.run(..., check=True)`: a zero exit, or the
CalledProcessError a non-zero exit raises. -/
inductive TranscodeOutcome where
  | success
  | calledProcessError
deriving DecidableEq

/-- How one run of the worker coroutine ends: a normal return (which
includes the caught-and-printed CalledProcessError), or an error the
`except subprocess.CalledProcessError` clause does not catch, which
propagates out of the background task. -/
inductive WorkerOutcome where
  | returned
  | uncaughtError (msg : String)
deriving DecidableEq

/-- src/services/video.py lines 10-34, `async_compress_video`: run ffmpeg
(which writes the compressed output file on success), delete the raw
input with `os.remove`, look the VideoItem up by its filename, assert it
exists, find the first matching registry Job, assert it exists, and set
that job's `completed` flag.  A non-zero ffmpeg exit is caught and merely
printed: nothing else in the state changes.  `os.remove` on a missing
path and the two failing asserts raise errors the except clause does not
catch. -/
def async_compress_video (orig_file_path new_file_path : FileStr)
    (t : TranscodeOutcome) (st : AppState) : AppState × WorkerOutcome :=
  match t with
  | .calledProcessError => (st, .returned)
  | .success =>
    let st1 := { st with files := st.files ++ [new_file_path] }
    if orig_file_path ∈ st1.files then
      let st2 := { st1 with files := st1.files.erase orig_file_path }
      match lookup_video st2.videos new_file_path with
      | none => (st2, .uncaughtError "AssertionError: video_item is None")
      | some v =>
        match lookup_job st2.jobs v.id with
        | none => (st2, .uncaughtError "AssertionError: job_item is None")
        | some _ => ({ st2 with jobs := mark_job_completed st2.jobs v.id }, .returned)
    else (st1, .uncaughtError "FileNotFoundError: os.remove")

/-- The state one tick of the notification loop acts on: the shared job
registry, the persisted `jobs` table rows appended so far this tick, and
the `send_text` calls made so far this tick (socket id, video id). -/
structure TickState where
  jobs : List Job
  history : List JobItem
  sent : List (Nat × Nat)
deriving DecidableEq

/-- src/main.py lines 455-470, the inner `for connection in
manager.active_connections` loop for one `job`: on each connection whose
user matches a completed job, send the completion text, insert and commit
a JobItem — whose `user_id` is this endpoint's `self_uid`, not the
job's — and run `jobs.remove(job)`, which deletes the first registry
entry equal to `job` by value.  (When the one-connection-per-user
invariant is broken a second matching connection would make the second
`remove` raise ValueError; the embedding's `erase` is a no-op there, and
every theorem below runs with a single connection.) -/
def notify_job (self_uid now : Nat) (conns : List ActiveConnection)
    (job : Job) (st : TickState) : TickState :=
  conns.foldl
    (fun acc conn =>
      if job.user_id = conn.user_id ∧ job.completed = true then
        { jobs := acc.jobs.erase job,
          history := acc.history ++
            [(⟨now, self_uid, job.video_id, job.route_id, true⟩ : JobItem)],
          sent := acc.sent ++ [(conn.websocket.id, job.video_id)] }
      else acc)
    st

/-- src/main.py lines 454-470, the outer `for job in jobs` loop of one
tick, with CPython's list-iterator semantics made explicit: the iterator
keeps an index `i` into the live list, reads `jobs[i]`, runs the body
(which may shrink the list by `remove`), and then moves to index `i+1` of
the mutated list — so the element that slides into a removed job's slot
is never visited on this tick.  `fuel` only bounds the recursion; since
the body never lengthens the list and `i` grows each step, any
`fuel ≥ st.jobs.length - i` gives the loop's exact result (see
`notification_tick_aux_fuel_irrelevant`). -/
def notification_tick_aux (self_uid now : Nat) (conns : List ActiveConnection) :
    Nat → TickState → Nat → TickState
  | 0, st, _ => st
  | fuel + 1, st, i =>
    if h : i < st.jobs.length then
      notification_tick_aux self_uid now conns fuel
        (notify_job self_uid now conns (st.jobs.get ⟨i, h⟩) st) (i + 1)
    else st

/-- One full tick of the notification loop of the connection of user
`self_uid`: one pass of `for job in jobs` from index 0. -/
def notification_tick (self_uid now : Nat) (conns : List ActiveConnection)
    (st : TickState) : TickState :=
  notification_tick_aux self_uid now conns st.jobs.length st 0

/-! ### Theorems -/

/-- The one-live-connection-per-user invariant: no two entries of the
active list carry the same user id. -/
def one_per_user (l : List ActiveConnection) : Prop :=
  l.Pairwise (fun a b => a.user_id ≠ b.user_id)

/-- C7: the claim says `ConnectionManager.disconnect` is idempotent —
calling it on a connection already removed from the active set completes
without raising.  The code runs bare `list.remove`, which raises
`ValueError` when the element is absent: the first call on a registered
connection succeeds, the second call on the resulting manager raises
instead of completing.  The spec's contract is the evident intent
(`unregister ... must be idempotent (safe to call twice ...) without
error`), so this is a bug in the code. -/
theorem disconnect_second_call_raises :
    ConnectionManager.disconnect ⟨[⟨1, ⟨10⟩⟩]⟩ ⟨1, ⟨10⟩⟩ = .ok ⟨[]⟩ ∧
    ConnectionManager.disconnect ⟨[]⟩ ⟨1, ⟨10⟩⟩ =
      .error "ValueError: list.remove(x): x not in list" :=
  ⟨rfl, rfl⟩

/-- C8: two distinct freshly drawn uuid tokens (uuid4 strings all have
the same length) yield distinct storage paths from `generate_file_path`,
for any working directory, videos directory and suggested filenames —
in particular for two uploads with identical or absent suggested names,
and for the raw-upload and post-compression paths of a single upload. -/
theorem generate_file_path_collision_free (cwd vdir name1 name2 t1 t2 : FileStr)
    (hne : t1 ≠ t2) (hlen : t1.length = t2.length) :
    generate_file_path t1 cwd vdir name1 ≠ generate_file_path t2 cwd vdir name2 := by
  intro h
  apply hne
  unfold generate_file_path generate_file_name at h
  have h1 := List.append_cancel_left h
  have h2 := (List.cons.inj h1).2
  have h3 := List.append_cancel_left h2
  have h4 := (List.cons.inj h3).2
  exact List.append_inj_left h4 hlen

/-- Witness for C8 at concrete tokens. -/
theorem generate_file_path_collision_free_witness :
    (['a'] : FileStr) ≠ ['b'] ∧ (['a'] : FileStr).length = (['b'] : FileStr).length ∧
    generate_file_path ['a'] ['c'] ['v'] ['n'] ≠ generate_file_path ['b'] ['c'] ['v'] ['n'] :=
  ⟨by decide, by decide,
    generate_file_path_collision_free ['c'] ['v'] ['n'] ['n'] ['a'] ['b']
      (by decide) (by decide)⟩

/-- C5 counterexample: registering a second connection for user 1 does
remove the first one from the active set, but the registration step
emits no close/disconnect signal whatsoever to the evicted socket (id
10): `closed_sockets` is empty, because `manager.disconnect` only runs
`list.remove` and never calls `websocket.close`.  This refutes the
claim's clause that the evicted connection's channel observes a
close/disconnect signal. -/
theorem ws_register_emits_no_close :
    ws_register ⟨[⟨1, ⟨10⟩⟩]⟩ 1 ⟨11⟩ = .ok (⟨[⟨1, ⟨11⟩⟩]⟩, ⟨[]⟩) :=
  rfl

/-- C5 amended: registering a second live connection for a user evicts
the previously registered one from the active set — afterwards the
manager holds exactly one connection for that user and at most one per
user overall (assuming the invariant held before) — but no
close/disconnect signal is delivered to the evicted channel. -/
theorem ws_register_evicts_without_closing (m : ConnectionManager) (uid : Nat)
    (ws : WebSocketChan) (hinv : one_per_user m.active_connections) :
    ∃ m1 eff, ws_register m uid ws = .ok (m1, eff) ∧
      one_per_user m1.active_connections ∧
      (m1.active_connections.filter (fun c => c.user_id == uid)).length = 1 ∧
      eff.closed_sockets = [] := by
  unfold ws_register
  cases hfind : m.active_connections.find? (fun conn => conn.user_id == uid) with
  | none =>
    have hnone : ∀ c ∈ m.active_connections, c.user_id ≠ uid := by
      intro c hc
      have := List.find?_eq_none.mp hfind c hc
      simpa using this
    refine ⟨_, _, rfl, ?_, ?_, rfl⟩
    · unfold one_per_user ConnectionManager.connect
      rw [List.pairwise_append]
      refine ⟨hinv, by simp, ?_⟩
      intro a ha b hb
      have hb1 : b = ⟨uid, ws⟩ := by simpa using hb
      subst hb1
      exact hnone a ha
    · unfold ConnectionManager.connect
      rw [List.filter_append, List.filter_eq_nil_iff.mpr (by intro c hc; simpa using hnone c hc)]
      simp
  | some existing =>
    have hmem : existing ∈ m.active_connections := List.mem_of_find?_eq_some hfind
    have hpred : existing.user_id = uid := by
      have := List.find?_some hfind
      simpa using this
    dsimp only
    unfold ConnectionManager.disconnect
    rw [if_pos hmem]
    have hperm : List.Perm m.active_connections
        (existing :: m.active_connections.erase existing) :=
      List.perm_cons_erase hmem
    have hpair : (existing :: m.active_connections.erase existing).Pairwise
        (fun a b => a.user_id ≠ b.user_id) := by
      refine (List.Perm.pairwise_iff ?_ hperm).mp hinv
      intro a b hab
      exact fun he => hab he.symm
    have herase : ∀ c ∈ m.active_connections.erase existing, c.user_id ≠ uid := by
      intro c hc he
      have := (List.pairwise_cons.mp hpair).1 c hc
      exact this (hpred.trans he.symm)
    refine ⟨_, _, rfl, ?_, ?_, rfl⟩
    · unfold one_per_user ConnectionManager.connect
      rw [List.pairwise_append]
      refine ⟨(List.pairwise_cons.mp hpair).2, by simp, ?_⟩
      intro a ha b hb
      have hb1 : b = ⟨uid, ws⟩ := by simpa using hb
      subst hb1
      exact herase a ha
    · unfold ConnectionManager.connect
      rw [List.filter_append,
        List.filter_eq_nil_iff.mpr (by intro c hc; simpa using herase c hc)]
      simp

/-- Witness for C5 at a concrete manager holding one connection. -/
theorem ws_register_evicts_without_closing_witness :
    one_per_user ((⟨[⟨3, ⟨30⟩⟩]⟩ : ConnectionManager).active_connections) ∧
    (∃ m1 eff, ws_register ⟨[⟨3, ⟨30⟩⟩]⟩ 3 ⟨31⟩ = .ok (m1, eff) ∧
      one_per_user m1.active_connections ∧
      (m1.active_connections.filter (fun c => c.user_id == 3)).length = 1 ∧
      eff.closed_sockets = []) :=
  ⟨by unfold one_per_user; decide,
    ws_register_evicts_without_closing ⟨[⟨3, ⟨30⟩⟩]⟩ 3 ⟨31⟩ (by unfold one_per_user; decide)⟩

/-- The identity of a registry entry: every Job field except the
`completed` flag. -/
def job_identity (j : Job) : Nat × Nat × Nat :=
  (j.user_id, j.video_id, j.route_id)

theorem mark_job_completed_map_identity (l : List Job) (vid : Nat) :
    (mark_job_completed l vid).map job_identity = l.map job_identity := by
  induction l with
  | nil => rfl
  | cons a rest ih =>
    unfold mark_job_completed
    by_cases ha : a.video_id = vid
    · rw [if_pos ha]; rfl
    · rw [if_neg ha]
      simp only [List.map_cons, ih]

theorem lookup_job_mark (l : List Job) (vid : Nat) (j : Job)
    (h : lookup_job l vid = some j) :
    lookup_job (mark_job_completed l vid) vid = some { j with completed := true } := by
  induction l with
  | nil => simp [lookup_job] at h
  | cons a rest ih =>
    unfold lookup_job mark_job_completed
    unfold lookup_job at h
    by_cases ha : a.video_id = vid
    · rw [if_pos ha]
      rw [List.filter_cons_of_pos (by simpa using ha)] at h
      have hja : j = a := by simpa using h.symm
      subst hja
      rw [List.filter_cons_of_pos (by simpa using ha)]
      rfl
    · rw [if_neg ha]
      rw [List.filter_cons_of_neg (by simpa using ha)] at h
      rw [List.filter_cons_of_neg (by simpa using ha)]
      exact ih h

/-- C1: for every valid upload, upload_route_video either returns the new
video id having appended exactly one VideoItem row and exactly one Job to
the registry, or fails (returns None after the except-clause rollback)
with the persisted videos and the registry exactly as before.  Fault
injection covers every fallible step — `os.mkdir`, reading the stream,
writing the raw file, the commit; the appends to the in-memory registry
and to the background-task queue cannot raise. -/
theorem upload_route_video_atomic (route_id user_id : Nat)
    (tok1 tok2 name1 name2 cwd vdir : FileStr) (f : Faults) (st : AppState) :
    ((upload_route_video route_id user_id tok1 tok2 name1 name2 cwd vdir f st).1 = none ∧
      (upload_route_video route_id user_id tok1 tok2 name1 name2 cwd vdir f st).2.videos =
        st.videos ∧
      (upload_route_video route_id user_id tok1 tok2 name1 name2 cwd vdir f st).2.jobs =
        st.jobs) ∨
    ((upload_route_video route_id user_id tok1 tok2 name1 name2 cwd vdir f st).1 =
        some st.next_video_id ∧
      (upload_route_video route_id user_id tok1 tok2 name1 name2 cwd vdir f st).2.videos =
        st.videos ++ [⟨st.next_video_id, generate_file_path tok2 cwd vdir name2, route_id⟩] ∧
      (upload_route_video route_id user_id tok1 tok2 name1 name2 cwd vdir f st).2.jobs =
        st.jobs ++ [⟨user_id, st.next_video_id, route_id, false⟩]) := by
  obtain ⟨mf, rf, wf, cf⟩ := f
  cases mf <;> cases rf <;> cases wf <;> cases cf <;> cases hd : st.dir_exists <;>
    simp [upload_route_video, hd]

/-- C3 counterexample: after a failed transcode (non-zero ffmpeg exit,
caught as CalledProcessError and only printed) the state is unchanged in
every component: no record of any kind is marked failed — the VideoItem
schema has no `failed` column and the worker writes nothing on this
path — refuting the claim that `failed=true` is set and persisted on the
matching VideoRecord.  (The raw-file clause of the claim does hold: the
file list is untouched.) -/
theorem compress_failure_no_failed_flag :
    async_compress_video ['a'] ['b'] .calledProcessError
        ⟨true, [['a']], [⟨1, ['b'], 7⟩], 2, [⟨5, 1, 7, false⟩], []⟩ =
      (⟨true, [['a']], [⟨1, ['b'], 7⟩], 2, [⟨5, 1, 7, false⟩], []⟩, .returned) :=
  rfl

/-- C3 amended: for every transcode that fails with a non-zero exit, the
worker changes nothing at all: the raw input file is still on disk, no
record is mutated (there is no failed flag anywhere to set — the worker
only prints the caught error), and the run returns normally. -/
theorem compress_failure_leaves_state_unchanged (orig new : FileStr) (st : AppState) :
    async_compress_video orig new .calledProcessError st = (st, .returned) :=
  rfl

/-- C2 counterexample: after a successful transcode the persisted videos
table is byte-for-byte unchanged — the VideoItem schema has no
`completed`/`failed` columns and the worker persists nothing — refuting
the claim that the matching VideoRecord has `completed=true, failed=false`
persisted.  What the worker actually marks is the in-memory registry Job,
whose flag flips to true. -/
theorem compress_success_persists_nothing :
    ((async_compress_video ['a'] ['b'] .success
        ⟨true, [['a']], [⟨1, ['b'], 7⟩], 2, [⟨5, 1, 7, false⟩], []⟩).1.videos =
      [⟨1, ['b'], 7⟩]) ∧
    ((async_compress_video ['a'] ['b'] .success
        ⟨true, [['a']], [⟨1, ['b'], 7⟩], 2, [⟨5, 1, 7, false⟩], []⟩).1.jobs =
      [⟨5, 1, 7, true⟩]) := by
  constructor <;> rfl

/-- C2 amended: after a successful transcode the worker returns normally
having deleted the raw input file from disk, left the persisted videos
table unchanged (the schema has no completion flags), and set
`completed=true` on the matching registry Job. -/
theorem compress_success_removes_raw_and_marks_job (orig new : FileStr) (st : AppState)
    (v : VideoItem) (j : Job)
    (hv : lookup_video st.videos new = some v)
    (hj : lookup_job st.jobs v.id = some j)
    (hcount : st.files.count orig = 1)
    (hne : orig ≠ new) :
    (async_compress_video orig new .success st).2 = .returned ∧
    orig ∉ (async_compress_video orig new .success st).1.files ∧
    (async_compress_video orig new .success st).1.videos = st.videos ∧
    lookup_job (async_compress_video orig new .success st).1.jobs v.id =
      some { j with completed := true } := by
  have hmem : orig ∈ st.files := List.count_pos_iff.mp (hcount ▸ Nat.one_pos)
  have hmem1 : orig ∈ st.files ++ [new] := List.mem_append_left _ hmem
  have hcount0 : ((st.files ++ [new]).erase orig).count orig = 0 := by
    rw [List.count_erase_self, List.count_append]
    have : List.count orig [new] = 0 := by
      simp [List.count_singleton]
      exact fun h => hne h.symm
    omega
  simp only [async_compress_video]
  rw [if_pos hmem1]
  refine ⟨?_, ?_, ?_, ?_⟩
  · simp [hv, hj]
  · simp only [hv, hj]
    exact List.count_eq_zero.mp hcount0
  · simp [hv, hj]
  · simp only [hv, hj]
    exact lookup_job_mark st.jobs v.id j hj

/-- Witness for C2 on a one-video, one-job state. -/
theorem compress_success_removes_raw_and_marks_job_witness :
    lookup_video [⟨1, ['b'], 7⟩] ['b'] = some ⟨1, ['b'], 7⟩ ∧
    lookup_job [⟨5, 1, 7, false⟩] 1 = some ⟨5, 1, 7, false⟩ ∧
    ([['a']] : List FileStr).count ['a'] = 1 ∧
    (['a'] : FileStr) ≠ ['b'] ∧
    ((async_compress_video ['a'] ['b'] .success
        ⟨true, [['a']], [⟨1, ['b'], 7⟩], 2, [⟨5, 1, 7, false⟩], []⟩).2 = .returned ∧
      (['a'] : FileStr) ∉ (async_compress_video ['a'] ['b'] .success
        ⟨true, [['a']], [⟨1, ['b'], 7⟩], 2, [⟨5, 1, 7, false⟩], []⟩).1.files ∧
      (async_compress_video ['a'] ['b'] .success
        ⟨true, [['a']], [⟨1, ['b'], 7⟩], 2, [⟨5, 1, 7, false⟩], []⟩).1.videos =
        [⟨1, ['b'], 7⟩] ∧
      lookup_job (async_compress_video ['a'] ['b'] .success
        ⟨true, [['a']], [⟨1, ['b'], 7⟩], 2, [⟨5, 1, 7, false⟩], []⟩).1.jobs 1 =
        some ⟨5, 1, 7, true⟩) :=
  ⟨by decide, by decide, by decide, by decide,
    compress_success_removes_raw_and_marks_job ['a'] ['b']
      ⟨true, [['a']], [⟨1, ['b'], 7⟩], 2, [⟨5, 1, 7, false⟩], []⟩
      ⟨1, ['b'], 7⟩ ⟨5, 1, 7, false⟩ (by decide) (by decide) (by decide) (by decide)⟩

/-- C6 counterexample: the worker does mutate registry state — on a
successful transcode the matched Job's completed flag flips from false to
true, so the registry is not the same before and after the run, refuting
the frame condition as claimed. -/
theorem compress_mutates_registry :
    ((async_compress_video ['c'] ['d'] .success
        ⟨true, [['c']], [⟨2, ['d'], 9⟩], 3, [⟨6, 2, 9, false⟩], []⟩).1.jobs =
      [⟨6, 2, 9, true⟩]) ∧
    [(⟨6, 2, 9, true⟩ : Job)] ≠ [⟨6, 2, 9, false⟩] := by
  exact ⟨rfl, by decide⟩

/-- C6 amended: the worker never adds or removes registry entries and
never touches the persisted videos table; its only registry effect is
flipping the completed flag of the first Job matching the looked-up
video id (and on a failed transcode even that does not happen).  Every
entry keeps its user, video and route identity. -/
theorem compress_preserves_registry_entries (orig new : FileStr)
    (t : TranscodeOutcome) (st : AppState) :
    (async_compress_video orig new t st).1.videos = st.videos ∧
    (async_compress_video orig new t st).1.jobs.map job_identity =
      st.jobs.map job_identity := by
  cases t with
  | calledProcessError => exact ⟨rfl, rfl⟩
  | success =>
    simp only [async_compress_video]
    by_cases hmem : orig ∈ st.files ++ [new]
    · rw [if_pos hmem]
      split
      · exact ⟨rfl, rfl⟩
      · split
        · exact ⟨rfl, rfl⟩
        · exact ⟨rfl, mark_job_completed_map_identity st.jobs _⟩
    · rw [if_neg hmem]
      exact ⟨rfl, rfl⟩

/-- C10: under the precondition established by ingestion — the videos
table holds the record whose filename is the worker's new_file_path, the
registry holds a Job whose video_id is that record's id, the raw file is
on disk, and neither has been removed — the worker's success path
reaches its normal return: neither of the two asserts fires. -/
theorem compress_asserts_never_fail (orig new : FileStr) (st : AppState)
    (hvid : ∃ v ∈ st.videos, v.filename = new)
    (hjob : ∀ v ∈ st.videos, v.filename = new → ∃ j ∈ st.jobs, j.video_id = v.id)
    (hfile : orig ∈ st.files) :
    (async_compress_video orig new .success st).2 = .returned := by
  have hmem1 : orig ∈ st.files ++ [new] := List.mem_append_left _ hfile
  have hvsome : ∃ v, lookup_video st.videos new = some v := by
    have h1 : (lookup_video st.videos new).isSome := by
      unfold lookup_video
      rw [List.find?_isSome]
      obtain ⟨v, hvm, hfn⟩ := hvid
      exact ⟨v, hvm, by simpa using hfn⟩
    exact Option.isSome_iff_exists.mp h1
  obtain ⟨v, hv⟩ := hvsome
  have hvmem : v ∈ st.videos := List.mem_of_find?_eq_some hv
  have hvfn : v.filename = new := by simpa using List.find?_some hv
  obtain ⟨j, hjmem, hjvid⟩ := hjob v hvmem hvfn
  have hjsome : ∃ jj, lookup_job st.jobs v.id = some jj := by
    have hmemf : j ∈ List.filter (fun jj => jj.video_id == v.id) st.jobs :=
      List.mem_filter.mpr ⟨hjmem, by simpa using hjvid⟩
    unfold lookup_job
    cases hfil : List.filter (fun jj => jj.video_id == v.id) st.jobs with
    | nil => rw [hfil] at hmemf; simp at hmemf
    | cons a as => exact ⟨a, rfl⟩
  obtain ⟨jj, hjj⟩ := hjsome
  simp only [async_compress_video]
  rw [if_pos hmem1]
  simp [hv, hjj]

/-- Witness for C10 on a one-video, one-job state. -/
theorem compress_asserts_never_fail_witness :
    (∃ v ∈ [(⟨1, ['b'], 7⟩ : VideoItem)], v.filename = ['b']) ∧
    (∀ v ∈ [(⟨1, ['b'], 7⟩ : VideoItem)], v.filename = ['b'] →
      ∃ j ∈ [(⟨5, 1, 7, false⟩ : Job)], j.video_id = v.id) ∧
    (['a'] : FileStr) ∈ [(['a'] : FileStr)] ∧
    (async_compress_video ['a'] ['b'] .success
      ⟨true, [['a']], [⟨1, ['b'], 7⟩], 2, [⟨5, 1, 7, false⟩], []⟩).2 = .returned :=
  ⟨by decide, by decide, by decide,
    compress_asserts_never_fail ['a'] ['b']
      ⟨true, [['a']], [⟨1, ['b'], 7⟩], 2, [⟨5, 1, 7, false⟩], []⟩
      (by decide) (by decide) (by decide)⟩

/-! ### Notification-loop lemmas -/

theorem notify_job_cons_eq (self now : Nat) (c : ActiveConnection)
    (cs : List ActiveConnection) (job : Job) (st : TickState) :
    notify_job self now (c :: cs) job st =
      notify_job self now cs job
        (if job.user_id = c.user_id ∧ job.completed = true then
          ⟨st.jobs.erase job,
            st.history ++ [⟨now, self, job.video_id, job.route_id, true⟩],
            st.sent ++ [(c.websocket.id, job.video_id)]⟩
        else st) :=
  rfl

theorem notify_job_single_eq (self now cu sockid : Nat) (job : Job) (st : TickState) :
    notify_job self now [⟨cu, ⟨sockid⟩⟩] job st =
      if job.user_id = cu ∧ job.completed = true then
        ⟨st.jobs.erase job,
          st.history ++ [⟨now, self, job.video_id, job.route_id, true⟩],
          st.sent ++ [(sockid, job.video_id)]⟩
      else st :=
  rfl

theorem notify_job_jobs_sublist (self now : Nat) (job : Job) :
    ∀ (conns : List ActiveConnection) (st : TickState),
      (notify_job self now conns job st).jobs.Sublist st.jobs := by
  intro conns
  induction conns with
  | nil => intro st; exact List.Sublist.refl _
  | cons c cs ih =>
    intro st
    rw [notify_job_cons_eq]
    by_cases hc : job.user_id = c.user_id ∧ job.completed = true
    · rw [if_pos hc]
      exact (ih _).trans (List.erase_sublist _ _)
    · rw [if_neg hc]
      exact ih st

theorem notification_tick_aux_step (self now : Nat) (conns : List ActiveConnection)
    (fuel : Nat) (st : TickState) (i : Nat) (h : i < st.jobs.length) :
    notification_tick_aux self now conns (fuel + 1) st i =
      notification_tick_aux self now conns fuel
        (notify_job self now conns (st.jobs.get ⟨i, h⟩) st) (i + 1) := by
  conv_lhs => unfold notification_tick_aux
  rw [dif_pos h]

theorem notification_tick_aux_stop (self now : Nat) (conns : List ActiveConnection)
    (fuel : Nat) (st : TickState) (i : Nat) (h : ¬ i < st.jobs.length) :
    notification_tick_aux self now conns fuel st i = st := by
  cases fuel with
  | zero => rfl
  | succ m =>
    unfold notification_tick_aux
    rw [dif_neg h]

/-- Any fuel of at least `st.jobs.length - i` computes the loop's exact
result: the fuel parameter is only a recursion bound, never a semantic
cutoff, so `notification_tick` (which passes the list length) is the
faithful meaning of the Python `for` statement. -/
theorem notification_tick_aux_fuel_irrelevant (self now : Nat)
    (conns : List ActiveConnection) :
    ∀ (fuel fuel' : Nat) (st : TickState) (i : Nat),
      st.jobs.length ≤ i + fuel → st.jobs.length ≤ i + fuel' →
      notification_tick_aux self now conns fuel st i =
        notification_tick_aux self now conns fuel' st i := by
  intro fuel
  induction fuel with
  | zero =>
    intro fuel' st i h h'
    have hni : ¬ i < st.jobs.length := by omega
    rw [notification_tick_aux_stop self now conns 0 st i hni,
      notification_tick_aux_stop self now conns fuel' st i hni]
  | succ m ih =>
    intro fuel' st i h h'
    by_cases hi : i < st.jobs.length
    · cases fuel' with
      | zero => omega
      | succ m' =>
        rw [notification_tick_aux_step self now conns m st i hi,
          notification_tick_aux_step self now conns m' st i hi]
        have hsub := (notify_job_jobs_sublist self now (st.jobs.get ⟨i, hi⟩) conns st).length_le
        exact ih m' _ (i + 1) (by omega) (by omega)
    · rw [notification_tick_aux_stop self now conns (m + 1) st i hi,
        notification_tick_aux_stop self now conns fuel' st i hi]

/-- One pass of the loop of user `u`'s connection (the only live
connection) delivers some sublist `processed` of the registry: message
by message the sends and the history rows are exactly the images of
`processed`, every processed job is completed and owned by `u`, and
`processed` together with the surviving registry is a permutation of the
original registry — each removed entry is delivered exactly once. -/
theorem notification_tick_aux_spec (u now sock : Nat) :
    ∀ (fuel : Nat) (st : TickState) (i : Nat),
      ∃ processed : List Job,
        (notification_tick_aux u now [(⟨u, ⟨sock⟩⟩ : ActiveConnection)] fuel st i).sent =
          st.sent ++ processed.map (fun j => (sock, j.video_id)) ∧
        (notification_tick_aux u now [(⟨u, ⟨sock⟩⟩ : ActiveConnection)] fuel st i).history =
          st.history ++ processed.map
            (fun j => (⟨now, u, j.video_id, j.route_id, true⟩ : JobItem)) ∧
        (∀ j ∈ processed, j.user_id = u ∧ j.completed = true) ∧
        List.Perm
          (processed ++
            (notification_tick_aux u now [(⟨u, ⟨sock⟩⟩ : ActiveConnection)] fuel st i).jobs)
          st.jobs := by
  intro fuel
  induction fuel with
  | zero =>
    intro st i
    refine ⟨[], ?_, ?_, ?_, ?_⟩ <;> simp [notification_tick_aux]
  | succ m ih =>
    intro st i
    by_cases hi : i < st.jobs.length
    · rw [notification_tick_aux_step u now [(⟨u, ⟨sock⟩⟩ : ActiveConnection)] m st i hi]
      rw [notify_job_single_eq]
      by_cases hc : (st.jobs.get ⟨i, hi⟩).user_id = u ∧
          (st.jobs.get ⟨i, hi⟩).completed = true
      · rw [if_pos hc]
        obtain ⟨p, h1, h2, h3, h4⟩ := ih
          ⟨st.jobs.erase (st.jobs.get ⟨i, hi⟩),
            st.history ++ [⟨now, u, (st.jobs.get ⟨i, hi⟩).video_id,
              (st.jobs.get ⟨i, hi⟩).route_id, true⟩],
            st.sent ++ [(sock, (st.jobs.get ⟨i, hi⟩).video_id)]⟩ (i + 1)
        refine ⟨st.jobs.get ⟨i, hi⟩ :: p, ?_, ?_, ?_, ?_⟩
        · rw [h1]
          simp
        · rw [h2]
          simp
        · intro j hj
          rcases List.mem_cons.mp hj with hj1 | hj2
          · rw [hj1]; exact hc
          · exact h3 j hj2
        · have hjmem : st.jobs.get ⟨i, hi⟩ ∈ st.jobs := List.get_mem st.jobs i hi
          exact List.Perm.trans (List.Perm.cons _ h4) (List.perm_cons_erase hjmem).symm
      · rw [if_neg hc]
        exact ih st (i + 1)
    · rw [notification_tick_aux_stop u now [(⟨u, ⟨sock⟩⟩ : ActiveConnection)] (m + 1) st i hi]
      exact ⟨[], by simp, by simp, by simp, by simp⟩

theorem notify_job_cons_jobs (self now : Nat) (x : Job) (job : Job) (hne : job ≠ x) :
    ∀ (conns : List ActiveConnection) (l : List Job) (hist : List JobItem)
      (snt : List (Nat × Nat)),
      notify_job self now conns job ⟨x :: l, hist, snt⟩ =
        ⟨x :: (notify_job self now conns job ⟨l, hist, snt⟩).jobs,
          (notify_job self now conns job ⟨l, hist, snt⟩).history,
          (notify_job self now conns job ⟨l, hist, snt⟩).sent⟩ := by
  intro conns
  induction conns with
  | nil => intro l hist snt; rfl
  | cons c cs ih =>
    intro l hist snt
    rw [notify_job_cons_eq, notify_job_cons_eq]
    by_cases hc : job.user_id = c.user_id ∧ job.completed = true
    · rw [if_pos hc, if_pos hc]
      have hxj : ¬(x == job) := by
        simp only [beq_iff_eq]
        exact Ne.symm hne
      dsimp only
      rw [List.erase_cons_tail hxj]
      exact ih (l.erase job) _ _
    · rw [if_neg hc, if_neg hc]
      exact ih l hist snt

/-- The element sitting right after a removed job is never examined on
the current pass: iterating from index `i + 1` over `x :: l` is
iterating from index `i` over `l` with `x` left untouched in front
(provided `x` is not duplicated further down the list, so that no
removal by value can hit it). -/
theorem notification_tick_aux_cons (self now : Nat) (conns : List ActiveConnection)
    (x : Job) :
    ∀ (fuel : Nat) (l : List Job) (hist : List JobItem) (snt : List (Nat × Nat))
      (i : Nat), x ∉ l →
      notification_tick_aux self now conns fuel ⟨x :: l, hist, snt⟩ (i + 1) =
        ⟨x :: (notification_tick_aux self now conns fuel ⟨l, hist, snt⟩ i).jobs,
          (notification_tick_aux self now conns fuel ⟨l, hist, snt⟩ i).history,
          (notification_tick_aux self now conns fuel ⟨l, hist, snt⟩ i).sent⟩ := by
  intro fuel
  induction fuel with
  | zero => intro l hist snt i hx; rfl
  | succ m ih =>
    intro l hist snt i hx
    by_cases hi : i < l.length
    · have hi1 : i + 1 < (x :: l).length := by
        simp only [List.length_cons]
        omega
      rw [notification_tick_aux_step self now conns m ⟨x :: l, hist, snt⟩ (i + 1) hi1]
      rw [notification_tick_aux_step self now conns m ⟨l, hist, snt⟩ i hi]
      have hget : ((⟨x :: l, hist, snt⟩ : TickState).jobs).get ⟨i + 1, hi1⟩ =
          ((⟨l, hist, snt⟩ : TickState).jobs).get ⟨i, hi⟩ :=
        rfl
      rw [hget]
      have hne : ((⟨l, hist, snt⟩ : TickState).jobs).get ⟨i, hi⟩ ≠ x := by
        intro he
        exact hx (he ▸ List.get_mem l i hi)
      rw [notify_job_cons_jobs self now x _ hne conns l hist snt]
      have hx2 : x ∉ (notify_job self now conns
          (((⟨l, hist, snt⟩ : TickState).jobs).get ⟨i, hi⟩) ⟨l, hist, snt⟩).jobs := by
        intro hmem
        exact hx ((notify_job_jobs_sublist self now _ conns ⟨l, hist, snt⟩).subset hmem)
      exact ih _ _ _ (i + 1) hx2
    · have hi1 : ¬ (i + 1 < (x :: l).length) := by
        simp only [List.length_cons]
        omega
      rw [notification_tick_aux_stop self now conns (m + 1) ⟨x :: l, hist, snt⟩ (i + 1) hi1]
      rw [notification_tick_aux_stop self now conns (m + 1) ⟨l, hist, snt⟩ i hi]

/-- C4 counterexample: a registry holding two completed jobs of the
connected user (videos 201 and 202) is not drained in one tick — the
loop removes job 201 while iterating, the list shifts, and job 202 is
never examined: it gets no message, no history row, and stays in the
registry, refuting the claim that every completed matching Job is
processed in full on every tick. -/
theorem notification_tick_leaves_completed_job :
    notification_tick 2 0 [⟨2, ⟨60⟩⟩]
        ⟨[⟨2, 201, 3, true⟩, ⟨2, 202, 3, true⟩], [], []⟩ =
      ⟨[⟨2, 202, 3, true⟩], [⟨0, 2, 201, 3, true⟩], [(60, 201)]⟩ :=
  rfl

/-- C4 amended: on every tick the loop processes some sublist of the
registry — not necessarily all matching jobs, since the entry after a
removal is skipped for the rest of the tick — and for that sublist
delivery is exactly-once: the messages sent and the history rows
appended are in one-to-one correspondence with the processed jobs, every
processed job is completed and owned by the connection's user, and the
processed jobs together with the surviving registry form a permutation
of the original registry, so no entry is delivered or recorded twice. -/
theorem notification_tick_delivers_exactly_once (u now sock : Nat) (jobs0 : List Job) :
    ∃ processed : List Job,
      (notification_tick u now [(⟨u, ⟨sock⟩⟩ : ActiveConnection)]
          ⟨jobs0, [], []⟩).sent =
        processed.map (fun j => (sock, j.video_id)) ∧
      (notification_tick u now [(⟨u, ⟨sock⟩⟩ : ActiveConnection)]
          ⟨jobs0, [], []⟩).history =
        processed.map (fun j => (⟨now, u, j.video_id, j.route_id, true⟩ : JobItem)) ∧
      (∀ j ∈ processed, j.user_id = u ∧ j.completed = true) ∧
      List.Perm
        (processed ++
          (notification_tick u now [(⟨u, ⟨sock⟩⟩ : ActiveConnection)]
            ⟨jobs0, [], []⟩).jobs)
        jobs0 := by
  obtain ⟨p, h1, h2, h3, h4⟩ :=
    notification_tick_aux_spec u now sock jobs0.length ⟨jobs0, [], []⟩ 0
  refine ⟨p, ?_, ?_, h3, ?_⟩
  · simpa [notification_tick] using h1
  · simpa [notification_tick] using h2
  · simpa [notification_tick] using h4

/-- C9 counterexample: with three consecutive completed jobs of the
connected user (videos 101, 102, 103), one tick delivers and removes
101 and 103 but not 102.  For the consecutive pair (102, 103) the tick
therefore delivers the second of the two and not the first — the
claim's universally quantified "delivers and removes only the first of
the two" is false as stated. -/
theorem notification_tick_delivers_second_of_pair :
    notification_tick 1 0 [⟨1, ⟨50⟩⟩]
        ⟨[⟨1, 101, 7, true⟩, ⟨1, 102, 7, true⟩, ⟨1, 103, 7, true⟩], [], []⟩ =
      ⟨[⟨1, 102, 7, true⟩], [⟨0, 1, 101, 7, true⟩, ⟨0, 1, 103, 7, true⟩],
        [(50, 101), (50, 103)]⟩ :=
  rfl

/-- C9 amended: when the registry starts with two consecutive completed
jobs of the connected user (and the second is not duplicated further
down and its video id is fresh, as the one-job-per-video registry
invariant guarantees), one tick delivers and removes the first of the
two while the second — having slid into the removed job's slot — is
skipped: it stays in the registry and no message for its video id is
sent during this tick. -/
theorem notification_tick_skips_following_job (u now sock : Nat) (j1 j2 : Job)
    (rest : List Job)
    (h1u : j1.user_id = u) (h1c : j1.completed = true)
    (h2u : j2.user_id = u) (h2c : j2.completed = true)
    (hnotin : j2 ∉ rest)
    (hvid : ∀ j ∈ j1 :: rest, j.video_id ≠ j2.video_id) :
    (sock, j1.video_id) ∈
      (notification_tick u now [(⟨u, ⟨sock⟩⟩ : ActiveConnection)]
        ⟨j1 :: j2 :: rest, [], []⟩).sent ∧
    j2 ∈ (notification_tick u now [(⟨u, ⟨sock⟩⟩ : ActiveConnection)]
        ⟨j1 :: j2 :: rest, [], []⟩).jobs ∧
    ∀ m ∈ (notification_tick u now [(⟨u, ⟨sock⟩⟩ : ActiveConnection)]
        ⟨j1 :: j2 :: rest, [], []⟩).sent, m.2 ≠ j2.video_id := by
  have e0 : notification_tick u now [(⟨u, ⟨sock⟩⟩ : ActiveConnection)]
      ⟨j1 :: j2 :: rest, [], []⟩ =
      notification_tick_aux u now [(⟨u, ⟨sock⟩⟩ : ActiveConnection)]
        (rest.length + 1 + 1) ⟨j1 :: j2 :: rest, [], []⟩ 0 := by
    simp [notification_tick]
  rw [e0]
  have h0 : (0 : Nat) < ((⟨j1 :: j2 :: rest, [], []⟩ : TickState)).jobs.length := by
    simp
  rw [notification_tick_aux_step u now [(⟨u, ⟨sock⟩⟩ : ActiveConnection)]
    (rest.length + 1) ⟨j1 :: j2 :: rest, [], []⟩ 0 h0]
  have hget0 : ((⟨j1 :: j2 :: rest, [], []⟩ : TickState)).jobs.get ⟨0, h0⟩ = j1 := rfl
  rw [hget0, notify_job_single_eq, if_pos ⟨h1u, h1c⟩]
  dsimp only
  simp only [List.erase_cons_head, List.nil_append]
  rw [notification_tick_aux_cons u now [(⟨u, ⟨sock⟩⟩ : ActiveConnection)] j2
    (rest.length + 1) rest [⟨now, u, j1.video_id, j1.route_id, true⟩]
    [(sock, j1.video_id)] 0 hnotin]
  obtain ⟨p, hs, hh, hp, hperm⟩ :=
    notification_tick_aux_spec u now sock (rest.length + 1)
      ⟨rest, [⟨now, u, j1.video_id, j1.route_id, true⟩], [(sock, j1.video_id)]⟩ 0
  have hs1 : (notification_tick_aux u now [(⟨u, ⟨sock⟩⟩ : ActiveConnection)]
      (rest.length + 1)
      ⟨rest, [⟨now, u, j1.video_id, j1.route_id, true⟩], [(sock, j1.video_id)]⟩ 0).sent =
      [(sock, j1.video_id)] ++ p.map (fun j => (sock, j.video_id)) := hs
  have hperm1 : List.Perm
      (p ++ (notification_tick_aux u now [(⟨u, ⟨sock⟩⟩ : ActiveConnection)]
        (rest.length + 1)
        ⟨rest, [⟨now, u, j1.video_id, j1.route_id, true⟩], [(sock, j1.video_id)]⟩ 0).jobs)
      rest := hperm
  refine ⟨?_, ?_, ?_⟩
  · dsimp only
    rw [hs1]
    exact List.mem_append_left _ (by simp)
  · dsimp only
    exact List.mem_cons_self _ _
  · intro m hm
    dsimp only at hm
    rw [hs1] at hm
    rcases List.mem_append.mp hm with hm1 | hm2
    · have hm3 : m = (sock, j1.video_id) := by simpa using hm1
      rw [hm3]
      exact hvid j1 (List.mem_cons_self _ _)
    · obtain ⟨j, hjp, hjm⟩ := List.mem_map.mp hm2
      have hjrest : j ∈ rest := hperm1.subset (List.mem_append_left _ hjp)
      rw [← hjm]
      exact hvid j (List.mem_cons_of_mem _ hjrest)

/-- Witness for C9 on the registry [job 101, job 102], both completed and
owned by the connected user 1. -/
theorem notification_tick_skips_following_job_witness :
    ((⟨1, 101, 7, true⟩ : Job).user_id = 1) ∧
    ((⟨1, 101, 7, true⟩ : Job).completed = true) ∧
    ((⟨1, 102, 7, true⟩ : Job).user_id = 1) ∧
    ((⟨1, 102, 7, true⟩ : Job).completed = true) ∧
    ((⟨1, 102, 7, true⟩ : Job) ∉ ([] : List Job)) ∧
    (∀ j ∈ [(⟨1, 101, 7, true⟩ : Job)], j.video_id ≠ (⟨1, 102, 7, true⟩ : Job).video_id) ∧
    ((50, (⟨1, 101, 7, true⟩ : Job).video_id) ∈
      (notification_tick 1 0 [(⟨1, ⟨50⟩⟩ : ActiveConnection)]
        ⟨[⟨1, 101, 7, true⟩, ⟨1, 102, 7, true⟩], [], []⟩).sent ∧
    (⟨1, 102, 7, true⟩ : Job) ∈
      (notification_tick 1 0 [(⟨1, ⟨50⟩⟩ : ActiveConnection)]
        ⟨[⟨1, 101, 7, true⟩, ⟨1, 102, 7, true⟩], [], []⟩).jobs ∧
    ∀ m ∈ (notification_tick 1 0 [(⟨1, ⟨50⟩⟩ : ActiveConnection)]
        ⟨[⟨1, 101, 7, true⟩, ⟨1, 102, 7, true⟩], [], []⟩).sent,
      m.2 ≠ (⟨1, 102, 7, true⟩ : Job).video_id) :=
  ⟨rfl, rfl, rfl, rfl, by decide, by decide,
    notification_tick_skips_following_job 1 0 50 ⟨1, 101, 7, true⟩ ⟨1, 102, 7, true⟩ []
      rfl rfl rfl rfl (by decide) (by decide)⟩

end FastapiPasta
